import Mathlib

/-!
Verification development for the layered triple store.

The definitions below are a shallow embedding of the source:
`src/storage/directory/locking.rs` (label file reading and the locked label
write path), `src/layer/layer.rs` (the `Layer` trait with its default
methods, the lookup traits, triples and object types), and
`src/store/mod.rs` (`DatabaseLayerBuilder`, `Database::head`,
`Database::set_head`).

Machine integers (`u64` ids and versions, `[u32;5]` layer names) are
modelled as `Nat`; no arithmetic in the embedded code paths can overflow a
`u64` other than through inputs, which the claims quantify over as
abstract numbers.
-/

/-- A layer name: `[u32;5]`, five 32-bit words. -/
abbrev LayerName := Nat × Nat × Nat × Nat × Nat

/-- A label record: `Label { name, layer, version }` from `src/storage`. -/
structure Label where
  name : String
  layer : Option LayerName
  version : Nat
deriving DecidableEq, Repr

/-- The error kinds surfaced by the embedded code paths.
`notFound` models `io::ErrorKind::NotFound`, `invalidData` models
`io::ErrorKind::InvalidData`. -/
inductive StoreError where
  | notFound
  | invalidData
deriving DecidableEq, Repr

deriving instance DecidableEq for Except

/-! ## Label file parsing (`read_label_file`, locking.rs lines 10-49) -/

/-- Split a character list at every newline character, keeping empty
segments, as Rust's `str::split('\n')` does. -/
def splitNl : List Char → List (List Char)
  | [] => [[]]
  | c :: rest =>
    match splitNl rest with
    | [] => [[]]
    | l :: ls => if c = '\n' then [] :: l :: ls else (c :: l) :: ls

/-- Strip one trailing carriage return, as Rust's `str::lines` does for
segments that were terminated by a newline. -/
def stripCR (l : List Char) : List Char :=
  if l.getLast? = some '\r' then l.dropLast else l

/-- Rust `str::lines`: split at `\n` or `\r\n`; the final line ending is
optional, and a trailing empty segment (from a final terminator) is
dropped. -/
def rustLines (s : String) : List String :=
  let parts := splitNl s.data
  let front := (parts.dropLast.map stripCR).map (fun l => String.mk l)
  match parts.getLast? with
  | none => front
  | some last => if last = [] then front else front ++ [String.mk last]

/-- Rust `u64::from_str_radix(s, 10)` digit accumulation. -/
def decDigitsAux : List Char → Nat → Option Nat
  | [], acc => some acc
  | c :: rest, acc =>
    if c.isDigit then decDigitsAux rest (acc * 10 + (c.toNat - 48)) else none

/-- Rust `u64::from_str_radix(s, 10)`: an optional `+` sign followed by at
least one decimal digit; values that do not fit a `u64` are an error. -/
def u64_from_dec_str (cs : List Char) : Option Nat :=
  let digits := match cs with
    | '+' :: rest => rest
    | other => other
  match digits with
  | [] => none
  | _ =>
    match decDigitsAux digits 0 with
    | none => none
    | some v => if v < 2 ^ 64 then some v else none

/-- Value of a single lowercase hexadecimal digit. -/
def hexVal (c : Char) : Nat :=
  if c.isDigit then c.toNat - 48 else c.toNat - 87

/-- Whether a character is a lowercase hexadecimal digit. -/
def isLowerHex (c : Char) : Bool :=
  c.isDigit || ('a' ≤ c && c ≤ 'f')

/-- Value of a big-endian string of hexadecimal digits. -/
def hexListVal (cs : List Char) : Nat :=
  cs.foldl (fun a c => a * 16 + hexVal c) 0

/-- Modelled from the spec: `storage::layer::string_to_name` is not part of
the source under consideration (only its caller `read_label_file` is). Per
the spec (section 6), a layer name's textual form is 40 lowercase
hexadecimal characters encoding five 32-bit unsigned big-endian words; any
other string is malformed hex. -/
def string_to_name (s : String) : Option LayerName :=
  let cs := s.data
  if cs.length = 40 ∧ cs.all isLowerHex then
    some (hexListVal (cs.take 8),
          hexListVal ((cs.drop 8).take 8),
          hexListVal ((cs.drop 16).take 8),
          hexListVal ((cs.drop 24).take 8),
          hexListVal ((cs.drop 32).take 8))
  else none

/-- `read_label_file` (locking.rs lines 10-49): split the file contents in
lines; require exactly two lines; parse line 1 as a decimal `u64` version;
an empty line 2 means no head layer, otherwise line 2 must parse as a
layer name. Every failure is an `InvalidData` error. -/
def read_label_file (content : String) (name : String) : Except StoreError Label :=
  match rustLines content with
  | [version_str, layer_str] =>
    match u64_from_dec_str version_str.data with
    | none => .error .invalidData
    | some version =>
      if layer_str = "" then .ok { name := name, layer := none, version := version }
      else
        match string_to_name layer_str with
        | none => .error .invalidData
        | some layer => .ok { name := name, layer := some layer, version := version }
  | _ => .error .invalidData

/-- The well-formedness condition the amended claim about label files
states, written from the spec's words for comparison with
`read_label_file`: exactly two lines, a decimal `u64` version on line 1,
and an empty-or-valid layer name on line 2. -/
def spec_label_file_wellformed (content : String) : Bool :=
  match rustLines content with
  | [version_str, layer_str] =>
    (u64_from_dec_str version_str.data).isSome &&
      (layer_str == "" || (string_to_name layer_str).isSome)
  | _ => false

/-! ## The locked label write path (`write_label`, locking.rs lines 159-182)

The writer works at the level of file contents. `LockedFileWriter::open`
opens the file with read and write but neither append nor truncate, and
the writer has no seek; `write_label` re-reads the whole file through
`read_label_file` on the same handle, which leaves the handle's cursor at
end-of-file, so the `write_all` on the write branch emits the serialized
record after the old contents. -/

/-- The decimal digit character for a value below ten. -/
def decDigitChar (n : Nat) : Char :=
  Char.ofNat (48 + n)

/-- Digit accumulator for decimal rendering, with fuel for the recursion
on `n / 10`. -/
def natDecCharsAux : Nat → Nat → List Char → List Char
  | 0, _, acc => acc
  | fuel + 1, n, acc =>
    if n < 10 then decDigitChar (n % 10) :: acc
    else natDecCharsAux fuel (n / 10) (decDigitChar (n % 10) :: acc)

/-- Rust's `format!` rendering of a `u64`: plain decimal digits. -/
def nat_to_dec_string (n : Nat) : String :=
  String.mk (natDecCharsAux (n + 1) n [])

/-- The hexadecimal digit character for a value below sixteen, lowercase. -/
def hexDigitChar (n : Nat) : Char :=
  if n < 10 then Char.ofNat (48 + n) else Char.ofNat (87 + n)

/-- The eight-character lowercase hexadecimal rendering of a 32-bit word,
big-endian. -/
def hexChars8 (n : Nat) : List Char :=
  (List.range 8).map (fun i => hexDigitChar (n / 16 ^ (7 - i) % 16))

/-- Modelled from the spec: `storage::layer::name_to_string` is not part of
the source under consideration (only its caller `write_label` is). Per the
spec (section 6), a layer name's textual form is 40 lowercase hexadecimal
characters encoding its five 32-bit unsigned big-endian words. -/
def name_to_string (name : LayerName) : String :=
  String.mk (hexChars8 name.1 ++ hexChars8 name.2.1 ++ hexChars8 name.2.2.1
    ++ hexChars8 name.2.2.2.1 ++ hexChars8 name.2.2.2.2)

/-- The contents `write_label` serializes (locking.rs lines 161-164):
`"{version}\n\n"` when the label has no layer, and
`"{version}\n{layer}\n"` otherwise. -/
def label_contents (label : Label) : String :=
  match label.layer with
  | none => nat_to_dec_string label.version ++ "\n\n"
  | some layer => nat_to_dec_string label.version ++ "\n" ++ name_to_string layer ++ "\n"

/-- `LockedFileWriter::write_label` (locking.rs lines 159-182) on the
file's contents: re-read the file through `read_label_file` (leaving the
cursor at end-of-file); a parse failure propagates, writing nothing; a
stored version above the version being written reports false without
writing; a stored version equal to the version being written reports true
without writing; otherwise `write_all` emits the serialized record at the
cursor — appending it after the old contents, since the handle was opened
without append or truncate and never seeks — and reports true. The pair
returned is (reported result, file contents after the call). -/
def write_label_file (disk : String) (label : Label) : Except StoreError (Bool × String) :=
  match read_label_file disk label.name with
  | .error e => .error e
  | .ok l =>
    if l.version > label.version then .ok (false, disk)
    else if l.version = label.version then .ok (true, disk)
    else .ok (true, disk ++ label_contents label)

/-- Modelled from the spec: `DirectoryLabelStore::set_label` is not part of
the source under consideration (only the write path it invokes is). Per
the spec (section 4.F), it takes the exclusive lock and hands the record
`(name, new_layer, expected.version + 1)` to the write path. -/
def set_label_on_disk (disk : String) (expected : Label) (new_layer : LayerName) :
    Except StoreError (Bool × String) :=
  write_label_file disk { name := expected.name, layer := some new_layer, version := expected.version + 1 }

/-! ## Theorems: C1 and C4 -/

/-- C1 counterexample: a label file storing version 1, handed to
`set_label` with an expected version of 0, reports success even though the
stored version differs from the expected version, and the file is left
unchanged — no record is written; the claim that the write path succeeds
if and only if the stored version equals `expected.version` (writing the
new record when it does) is therefore false. -/
theorem C1_counterexample :
    read_label_file "1\n\n" "foo" = .ok ⟨"foo", none, 1⟩
    ∧ (⟨"foo", none, 1⟩ : Label).version ≠ (⟨"foo", none, 0⟩ : Label).version
    ∧ set_label_on_disk "1\n\n" ⟨"foo", none, 0⟩ (0, 0, 0, 0, 1) = .ok (true, "1\n\n") := by
  decide

/-- C1 (amended): on a label file whose contents parse, `set_label(expected,
new_layer)` reports success if and only if the stored version is at most
`expected.version + 1`; when the stored version is at most
`expected.version` it appends the serialized record
`(name, new_layer, expected.version + 1)` after the old contents (the
handle's cursor is at end-of-file after the re-read, with no seek or
truncate) rather than replacing them; when the stored version equals
`expected.version + 1` it reports success leaving the file unchanged; and
when the stored version exceeds `expected.version + 1` it reports failure
leaving the file unchanged. -/
theorem C1_set_label_amended (disk : String) (expected : Label) (new_layer : LayerName)
    (stored : Label)
    (hparse : read_label_file disk expected.name = .ok stored) :
    ((∃ rest, set_label_on_disk disk expected new_layer = .ok (true, rest))
      ↔ stored.version ≤ expected.version + 1)
    ∧ (stored.version ≤ expected.version →
        set_label_on_disk disk expected new_layer =
          .ok (true, disk ++ label_contents
            { name := expected.name, layer := some new_layer, version := expected.version + 1 }))
    ∧ (stored.version = expected.version + 1 →
        set_label_on_disk disk expected new_layer = .ok (true, disk))
    ∧ (expected.version + 1 < stored.version →
        set_label_on_disk disk expected new_layer = .ok (false, disk)) := by
  refine ⟨?_, ?_, ?_, ?_⟩
  · constructor
    · rintro ⟨rest, hrest⟩
      by_contra hgt
      simp only [not_le] at hgt
      simp only [set_label_on_disk, write_label_file, hparse] at hrest
      rw [if_pos (by omega : stored.version > expected.version + 1)] at hrest
      exact absurd hrest (by simp)
    · intro h
      simp only [set_label_on_disk, write_label_file, hparse]
      rcases Nat.lt_or_ge stored.version (expected.version + 1) with hlt | hge
      · rw [if_neg (by omega : ¬ stored.version > expected.version + 1),
          if_neg (by omega : ¬ stored.version = expected.version + 1)]
        exact ⟨_, rfl⟩
      · rw [if_neg (by omega : ¬ stored.version > expected.version + 1),
          if_pos (by omega : stored.version = expected.version + 1)]
        exact ⟨disk, rfl⟩
  · intro h
    simp only [set_label_on_disk, write_label_file, hparse]
    rw [if_neg (by omega : ¬ stored.version > expected.version + 1),
      if_neg (by omega : ¬ stored.version = expected.version + 1)]
  · intro h
    simp only [set_label_on_disk, write_label_file, hparse]
    rw [if_neg (by omega : ¬ stored.version > expected.version + 1),
      if_pos h]
  · intro h
    simp only [set_label_on_disk, write_label_file, hparse]
    rw [if_pos (by omega : stored.version > expected.version + 1)]

/-- C1 witness: a version-0 label file advanced with expected version 0
gets the serialized version-1 record appended after its old contents. -/
theorem C1_set_label_amended_witness :
    set_label_on_disk "0\n\n" ⟨"foo", none, 0⟩ (0, 0, 0, 0, 1) =
      .ok (true, "0\n\n" ++ label_contents ⟨"foo", some (0, 0, 0, 0, 1), 1⟩) :=
  (C1_set_label_amended "0\n\n" ⟨"foo", none, 0⟩ (0, 0, 0, 0, 1) ⟨"foo", none, 0⟩
    (by decide)).2.1 (by decide)

/-- C4: the claim — the stored version is monotone non-decreasing across
the label write path — is the spec's stated invariant and the repository's
own intent (the directory-store test in store/mod.rs re-reads the label
after each `set_head`), but the code slips on the write branch: the
handle's cursor sits at end-of-file after the re-read, so the record is
appended after the old contents and the file no longer parses at all.
Evaluated at a version-0 label file advanced to version 1: the write
reports success, the file holds the old two lines followed by the new two,
and re-reading it is an InvalidData error instead of a version-1 label. -/
theorem C4_write_label_corrupts :
    write_label_file "0\n\n" ⟨"foo", some (0, 0, 0, 0, 1), 1⟩
      = .ok (true, "0\n\n" ++ label_contents ⟨"foo", some (0, 0, 0, 0, 1), 1⟩)
    ∧ read_label_file ("0\n\n" ++ label_contents ⟨"foo", some (0, 0, 0, 0, 1), 1⟩) "foo"
      = .error .invalidData := by
  decide

/-! ## Layer ancestry (`Layer::is_ancestor_of`, layer.rs lines 154-159)

The `Layer` trait's ancestry-relevant surface is `name()` and `parent()`;
a chain of layers built by the creation protocol is acyclic, which the
inductive below captures: a layer is either a base layer or a child of an
already-constructed layer. -/

/-- A layer as seen by the ancestry walk: its name and its parent chain. -/
inductive Layer where
  | base (name : LayerName)
  | child (name : LayerName) (parent : Layer)
deriving DecidableEq, Repr

/-- `Layer::name`. -/
def Layer.name : Layer → LayerName
  | .base n => n
  | .child n _ => n

/-- `Layer::parent`: `None` for a base layer. -/
def Layer.parent : Layer → Option Layer
  | .base _ => none
  | .child _ p => some p

/-- `Layer::is_ancestor_of` (layer.rs lines 154-159): walk `other`'s parent
chain; report true as soon as a parent's name equals this layer's name. -/
def is_ancestor_of (self : Layer) : Layer → Bool
  | .base _ => false
  | .child _ p => (p.name == self.name) || is_ancestor_of self p

/-- `is_ancestor_of` is literally the match on `other.parent()` in the
source. -/
theorem is_ancestor_of_eq_parent_match (self other : Layer) :
    is_ancestor_of self other =
      match other.parent with
      | none => false
      | some p => (p.name == self.name) || is_ancestor_of self p := by
  cases other <;> rfl

/-- A layer together with all its ancestors, nearest first. -/
def Layer.chain : Layer → List Layer
  | .base n => [.base n]
  | .child n p => .child n p :: p.chain

/-- The names along a layer's chain. -/
def Layer.chainNames (l : Layer) : List LayerName :=
  l.chain.map Layer.name

theorem Layer.chain_eq_cons : ∀ l : Layer, ∃ t, l.chain = l :: t
  | .base _ => ⟨[], rfl⟩
  | .child _ p => ⟨p.chain, rfl⟩

theorem Layer.self_mem_chain (l : Layer) : l ∈ l.chain := by
  obtain ⟨t, ht⟩ := l.chain_eq_cons
  rw [ht]
  exact List.mem_cons_self l t

/-- If layer names identify layers along `B`'s chain, then `A` being an
ancestor of `B` makes `A`'s chain strictly shorter than `B`'s. -/
theorem ancestor_chain_length (A : Layer) :
    ∀ B : Layer, (∀ x ∈ B.chain, x.name = A.name → x = A) →
      is_ancestor_of A B = true → A.chain.length < B.chain.length := by
  intro B
  induction B with
  | base n =>
    intro _ h
    simp [is_ancestor_of] at h
  | child n p ih =>
    intro hinj h
    rw [is_ancestor_of] at h
    rcases Bool.or_eq_true_iff.mp h with hname | hanc
    · have hpA : p = A := by
        apply hinj p
        · rw [Layer.chain]
          exact List.mem_cons_of_mem _ p.self_mem_chain
        · exact beq_iff_eq.mp hname
      rw [Layer.chain, List.length_cons, ← hpA]
      omega
    · have hinj' : ∀ x ∈ p.chain, x.name = A.name → x = A := by
        intro x hx
        exact hinj x (by rw [Layer.chain]; exact List.mem_cons_of_mem _ hx)
      have := ih hinj' hanc
      rw [Layer.chain, List.length_cons]
      omega

/-- When a layer's chain has pairwise-distinct names, the layer is not
reported as its own ancestor. -/
theorem is_ancestor_of_self_eq_false (L : Layer) (h : L.chainNames.Nodup) :
    is_ancestor_of L L = false := by
  by_contra hne
  have htrue : is_ancestor_of L L = true := by
    cases hind : is_ancestor_of L L
    · exact absurd hind hne
    · rfl
  have hinj : ∀ x ∈ L.chain, x.name = L.name → x = L := by
    obtain ⟨t, ht⟩ := L.chain_eq_cons
    intro x hx hname
    rw [ht] at hx
    rcases List.mem_cons.mp hx with hhead | htail
    · exact hhead
    · exfalso
      have hnodup : (L.name :: t.map Layer.name).Nodup := by
        have : L.chainNames = L.name :: t.map Layer.name := by
          rw [Layer.chainNames, ht, List.map_cons]
        rw [← this]
        exact h
      have hnotmem := (List.nodup_cons.mp hnodup).1
      exact hnotmem (hname ▸ List.mem_map_of_mem Layer.name htail)
  exact absurd (ancestor_chain_length L L hinj htrue) (by omega)

/-- C2: on layers with acyclic parent chains, `is_ancestor_of` is a strict
partial order: a layer whose chain carries pairwise-distinct names is
never its own ancestor, and two distinct layers `A`, `B` whose names
identify them along each other's chains are never each the ancestor of the
other. -/
theorem C2_is_ancestor_of_strict (L A B : Layer)
    (hL : L.chainNames.Nodup)
    (hA : ∀ x ∈ B.chain, x.name = A.name → x = A)
    (hB : ∀ x ∈ A.chain, x.name = B.name → x = B)
    (_hne : A ≠ B) :
    is_ancestor_of L L = false
    ∧ ¬(is_ancestor_of A B = true ∧ is_ancestor_of B A = true) := by
  refine ⟨is_ancestor_of_self_eq_false L hL, ?_⟩
  rintro ⟨hAB, hBA⟩
  have h1 := ancestor_chain_length A B hA hAB
  have h2 := ancestor_chain_length B A hB hBA
  omega

/-- C2 witness: a concrete base layer, and a concrete layer with its
parent, instantiating the strict-order properties. -/
theorem C2_is_ancestor_of_strict_witness :
    is_ancestor_of (Layer.base (0, 0, 0, 0, 0)) (Layer.base (0, 0, 0, 0, 0)) = false
    ∧ ¬(is_ancestor_of (Layer.base (1, 0, 0, 0, 0)) (Layer.child (2, 0, 0, 0, 0) (.base (1, 0, 0, 0, 0))) = true
        ∧ is_ancestor_of (Layer.child (2, 0, 0, 0, 0) (.base (1, 0, 0, 0, 0))) (Layer.base (1, 0, 0, 0, 0)) = true) :=
  C2_is_ancestor_of_strict (Layer.base (0, 0, 0, 0, 0))
    (Layer.base (1, 0, 0, 0, 0))
    (Layer.child (2, 0, 0, 0, 0) (.base (1, 0, 0, 0, 0)))
    (by decide) (by decide) (by decide) (by decide)

/-! ## Triples, objects, and the lookup traits (layer.rs) -/

/-- `IdTriple` (layer.rs lines 277-299). -/
structure IdTriple where
  subject : Nat
  predicate : Nat
  object : Nat
deriving DecidableEq, Repr

/-- `IdTriple::new`. -/
def IdTriple.new (subject predicate object : Nat) : IdTriple :=
  { subject := subject, predicate := predicate, object := object }

/-- `ObjectType` (layer.rs lines 467-471): a node or a value object. -/
inductive ObjectType where
  | Node (s : String)
  | Value (s : String)
deriving DecidableEq, Repr

/-- `StringTriple` (layer.rs lines 301-340). -/
structure StringTriple where
  subject : String
  predicate : String
  object : ObjectType
deriving DecidableEq, Repr

/-- `StringTriple::new_node`. -/
def StringTriple.new_node (subject predicate object : String) : StringTriple :=
  { subject := subject, predicate := predicate, object := ObjectType.Node object }

/-- `StringTriple.new_value`. -/
def StringTriple.new_value (subject predicate object : String) : StringTriple :=
  { subject := subject, predicate := predicate, object := ObjectType.Value object }

/-- The strict (subject, predicate, object) lexicographic order on id
triples. -/
def IdTriple.lt (a b : IdTriple) : Prop :=
  a.subject < b.subject
  ∨ (a.subject = b.subject
      ∧ (a.predicate < b.predicate
          ∨ (a.predicate = b.predicate ∧ a.object < b.object)))

instance : DecidablePred fun p : IdTriple × IdTriple => IdTriple.lt p.1 p.2 :=
  fun p => by unfold IdTriple.lt; infer_instance

instance (a b : IdTriple) : Decidable (IdTriple.lt a b) := by
  unfold IdTriple.lt; infer_instance

/-- A `SubjectPredicateLookup` trait object (layer.rs lines 203-231): its
subject, its predicate, its `objects()` iterator, and its abstract
`has_object` method. -/
structure SubjectPredicateLookup where
  subject : Nat
  predicate : Nat
  objects : List Nat
  has_object : Nat → Bool

/-- `SubjectPredicateLookup::triples` (layer.rs lines 216-220): pair the
stored subject and predicate with each object the iterator yields. -/
def SubjectPredicateLookup.triples (spl : SubjectPredicateLookup) : List IdTriple :=
  spl.objects.map (fun o => IdTriple.new spl.subject spl.predicate o)

/-- `SubjectPredicateLookup::triple` (layer.rs lines 223-230). -/
def SubjectPredicateLookup.triple (spl : SubjectPredicateLookup) (object : Nat) : Option IdTriple :=
  if spl.has_object object then some (IdTriple.new spl.subject spl.predicate object)
  else none

/-- A `SubjectLookup` trait object (layer.rs lines 175-194): its subject,
its `predicates()` iterator, and its abstract `lookup_predicate` method. -/
structure SubjectLookup where
  subject : Nat
  predicates : List SubjectPredicateLookup
  lookup_predicate : Nat → Option SubjectPredicateLookup

/-- `SubjectLookup::triples` (layer.rs lines 191-193). -/
def SubjectLookup.triples (sl : SubjectLookup) : List IdTriple :=
  (sl.predicates.map SubjectPredicateLookup.triples).flatten

/-- An `ObjectLookup` trait object (layer.rs lines 234-275): its object and
its `subject_predicate_pairs()` iterator. -/
structure ObjectLookup where
  object : Nat
  subject_predicate_pairs : List (Nat × Nat)

/-- The loop body of `ObjectLookup::has_subject_predicate_pair`
(layer.rs lines 245-257): scan the pairs; report true at an exact match;
report false as soon as a pair past the search key appears. -/
def hasSubjectPredicatePairScan (subject predicate : Nat) : List (Nat × Nat) → Bool
  | [] => false
  | (s, p) :: rest =>
    if s = subject ∧ p = predicate then true
    else if s > subject ∨ (s = subject ∧ p > predicate) then false
    else hasSubjectPredicatePairScan subject predicate rest

/-- `ObjectLookup::has_subject_predicate_pair` (layer.rs lines 245-257). -/
def ObjectLookup.has_subject_predicate_pair (ol : ObjectLookup) (subject predicate : Nat) : Bool :=
  hasSubjectPredicatePairScan subject predicate ol.subject_predicate_pairs

/-- The strict (subject, predicate) lexicographic order on pairs the O→SP
iterator yields. -/
def pairLt (a b : Nat × Nat) : Prop :=
  a.1 < b.1 ∨ (a.1 = b.1 ∧ a.2 < b.2)

theorem hasSubjectPredicatePairScan_iff_mem (subject predicate : Nat) :
    ∀ l : List (Nat × Nat), l.Pairwise pairLt →
      (hasSubjectPredicatePairScan subject predicate l = true ↔ (subject, predicate) ∈ l) := by
  intro l
  induction l with
  | nil =>
    intro _
    simp [hasSubjectPredicatePairScan]
  | cons head rest ih =>
    intro hpw
    obtain ⟨s, p⟩ := head
    have hhead := (List.pairwise_cons.mp hpw).1
    have hrest := (List.pairwise_cons.mp hpw).2
    rw [hasSubjectPredicatePairScan]
    by_cases heq : s = subject ∧ p = predicate
    · simp only [if_pos heq]
      constructor
      · intro _
        rw [heq.1, heq.2]
        exact List.mem_cons_self _ _
      · intro _
        trivial
    · rw [if_neg heq]
      by_cases hpast : s > subject ∨ (s = subject ∧ p > predicate)
      · rw [if_pos hpast]
        constructor
        · intro h
          exact absurd h (by simp)
        · intro hmem
          exfalso
          rcases List.mem_cons.mp hmem with hh | ht
          · have h1 : s = subject := congrArg Prod.fst hh.symm
            have h2 : p = predicate := congrArg Prod.snd hh.symm
            exact heq ⟨h1, h2⟩
          · have := hhead (subject, predicate) ht
            rcases this with hlt | ⟨heq1, hlt2⟩
            · simp only at hlt
              rcases hpast with h | ⟨h, _⟩ <;> omega
            · simp only at heq1 hlt2
              rcases hpast with h | ⟨_, h⟩ <;> omega
      · rw [if_neg hpast]
        rw [ih hrest]
        constructor
        · intro h
          exact List.mem_cons_of_mem _ h
        · intro hmem
          rcases List.mem_cons.mp hmem with hh | ht
          · exfalso
            have h1 : s = subject := congrArg Prod.fst hh.symm
            have h2 : p = predicate := congrArg Prod.snd hh.symm
            exact heq ⟨h1, h2⟩
          · exact ht

/-- C3: for an `ObjectLookup` whose `subject_predicate_pairs()` iterator
yields pairs in strictly ascending (subject, predicate) lexicographic
order, the early-terminating scan `has_subject_predicate_pair(s, p)`
returns true exactly when `(s, p)` occurs in the iterator. -/
theorem C3_has_subject_predicate_pair (ol : ObjectLookup) (subject predicate : Nat)
    (hsorted : ol.subject_predicate_pairs.Pairwise pairLt) :
    ol.has_subject_predicate_pair subject predicate = true
      ↔ (subject, predicate) ∈ ol.subject_predicate_pairs :=
  hasSubjectPredicatePairScan_iff_mem subject predicate ol.subject_predicate_pairs hsorted

/-- C3 witness: on the sorted pair list [(1,2), (2,1), (3,5)], the scan
finds (2,1) and the membership holds. -/
theorem C3_has_subject_predicate_pair_witness :
    (ObjectLookup.mk 7 [(1, 2), (2, 1), (3, 5)]).has_subject_predicate_pair 2 1 = true
    ∧ ((2, 1) : Nat × Nat) ∈ (ObjectLookup.mk 7 [(1, 2), (2, 1), (3, 5)]).subject_predicate_pairs := by
  have h := C3_has_subject_predicate_pair (ObjectLookup.mk 7 [(1, 2), (2, 1), (3, 5)]) 2 1
    (by unfold pairLt; decide)
  exact ⟨h.mpr (by decide), by decide⟩

/-! ## The `Layer` trait's query surface (layer.rs lines 14-160)

A `dyn Layer` as seen by the default query methods: the abstract methods
are function and iterator fields, the default methods are the definitions
below. The ancestry part of the trait is modelled separately above. -/

/-- A layer's query surface: dictionary resolution plus the subject and
object navigation methods. -/
structure LayerView where
  subject_id : String → Option Nat
  predicate_id : String → Option Nat
  object_node_id : String → Option Nat
  object_value_id : String → Option Nat
  subjects : List SubjectLookup
  lookup_subject : Nat → Option SubjectLookup
  objects : List ObjectLookup
  lookup_object : Nat → Option ObjectLookup

/-- `Layer::triple_exists` (layer.rs lines 79-84): chain
`lookup_subject`, `lookup_predicate` and `triple`, and test for `Some`. -/
def LayerView.triple_exists (L : LayerView) (subject predicate object : Nat) : Bool :=
  ((L.lookup_subject subject).bind
    (fun pairs => (pairs.lookup_predicate predicate).bind
      (fun objects => objects.triple object))).isSome

/-- `Layer::id_triple_exists` (layer.rs lines 87-89). -/
def LayerView.id_triple_exists (L : LayerView) (triple : IdTriple) : Bool :=
  L.triple_exists triple.subject triple.predicate triple.object

/-- `Layer::string_triple_to_id` (layer.rs lines 108-119): resolve the
subject via `subject_id`, the predicate via `predicate_id`, and the object
via `object_node_id` or `object_value_id` according to its tag; `None` when
any component fails to resolve. -/
def LayerView.string_triple_to_id (L : LayerView) (triple : StringTriple) : Option IdTriple :=
  (L.subject_id triple.subject).bind
    (fun subject => (L.predicate_id triple.predicate).bind
      (fun predicate =>
        (match triple.object with
          | ObjectType.Node node => L.object_node_id node
          | ObjectType.Value value => L.object_value_id value).map
          (fun object => IdTriple.new subject predicate object)))

/-- `Layer::string_triple_exists` (layer.rs lines 92-96). -/
def LayerView.string_triple_exists (L : LayerView) (triple : StringTriple) : Bool :=
  ((L.string_triple_to_id triple).map (fun t => L.id_triple_exists t)).getD false

/-- `Layer::triples` (layer.rs lines 103-106): flatten the per-subject
`predicates()` iterators, then flatten their per-pair `triples()`. -/
def LayerView.triples (L : LayerView) : List IdTriple :=
  (((L.subjects.map SubjectLookup.predicates).flatten).map SubjectPredicateLookup.triples).flatten

/-! ## Theorems: C7 -/

/-- C7: for every layer and string triple, `string_triple_exists` is false
whenever any component string fails to resolve to an id — the subject via
`subject_id`, the predicate via `predicate_id`, and the object via
`object_node_id` for a node tag or `object_value_id` for a value tag. -/
theorem C7_string_triple_exists_unresolved (L : LayerView) (triple : StringTriple)
    (h : L.subject_id triple.subject = none
        ∨ L.predicate_id triple.predicate = none
        ∨ (match triple.object with
            | ObjectType.Node node => L.object_node_id node
            | ObjectType.Value value => L.object_value_id value) = none) :
    L.string_triple_exists triple = false := by
  have hid : L.string_triple_to_id triple = none := by
    unfold LayerView.string_triple_to_id
    rcases h with hs | hp | ho
    · rw [hs]
      rfl
    · rw [hp]
      cases L.subject_id triple.subject <;> rfl
    · rw [ho]
      cases L.subject_id triple.subject <;> cases L.predicate_id triple.predicate <;> rfl
  unfold LayerView.string_triple_exists
  rw [hid]
  rfl

/-- A concrete layer for the C7 witness: it knows "cow", "says" and the
value "moo", but no node "moo". -/
def cowLayer : LayerView :=
  { subject_id := fun s => if s = "cow" then some 1 else none
    predicate_id := fun s => if s = "says" then some 1 else none
    object_node_id := fun s => if s = "cow" then some 1 else none
    object_value_id := fun s => if s = "moo" then some 2 else none
    subjects := [SubjectLookup.mk 1 [SubjectPredicateLookup.mk 1 1 [2] (fun o => o == 2)]
                  (fun p => if p = 1 then some (SubjectPredicateLookup.mk 1 1 [2] (fun o => o == 2)) else none)]
    lookup_subject := fun s => if s = 1 then
        some (SubjectLookup.mk 1 [SubjectPredicateLookup.mk 1 1 [2] (fun o => o == 2)]
          (fun p => if p = 1 then some (SubjectPredicateLookup.mk 1 1 [2] (fun o => o == 2)) else none))
      else none
    objects := [ObjectLookup.mk 2 [(1, 1)]]
    lookup_object := fun o => if o = 2 then some (ObjectLookup.mk 2 [(1, 1)]) else none }

/-- C7 witness: on the concrete layer, the triple ("cow", "says",
Node "moo") — whose object was committed as a value, not a node — is
reported absent. -/
theorem C7_string_triple_exists_unresolved_witness :
    cowLayer.string_triple_exists (StringTriple.new_node "cow" "says" "moo") = false :=
  C7_string_triple_exists_unresolved cowLayer (StringTriple.new_node "cow" "says" "moo")
    (Or.inr (Or.inr (by decide)))

/-! ## Theorems: C8 -/

/-- C8: for a layer whose `subjects()` iterator yields subjects in strictly
ascending id order, whose per-subject `predicates()` iterators carry that
subject and yield predicates in strictly ascending id order, and whose
per-(subject, predicate) `objects()` iterators yield objects in strictly
ascending id order, `triples()` enumerates triples in strictly ascending
(subject, predicate, object) id-lexicographic order. -/
theorem C8_triples_sorted (L : LayerView)
    (hs : L.subjects.Pairwise (fun a b => a.subject < b.subject))
    (hp : ∀ sl ∈ L.subjects, sl.predicates.Pairwise (fun a b => a.predicate < b.predicate))
    (hsub : ∀ sl ∈ L.subjects, ∀ spl ∈ sl.predicates, spl.subject = sl.subject)
    (ho : ∀ sl ∈ L.subjects, ∀ spl ∈ sl.predicates, spl.objects.Pairwise (· < ·)) :
    L.triples.Pairwise IdTriple.lt := by
  unfold LayerView.triples
  rw [List.pairwise_flatten]
  constructor
  · intro l hl
    rw [List.mem_map] at hl
    obtain ⟨spl, hsplM, rfl⟩ := hl
    rw [List.mem_flatten] at hsplM
    obtain ⟨ps, hps, hsplps⟩ := hsplM
    rw [List.mem_map] at hps
    obtain ⟨sl, hsl, rfl⟩ := hps
    have hobj := ho sl hsl spl hsplps
    unfold SubjectPredicateLookup.triples
    rw [List.pairwise_map]
    apply hobj.imp
    intro a b hab
    exact Or.inr ⟨rfl, Or.inr ⟨rfl, hab⟩⟩
  · rw [List.pairwise_map]
    have hM : ((L.subjects.map SubjectLookup.predicates).flatten).Pairwise
        (fun a b => a.subject < b.subject ∨ (a.subject = b.subject ∧ a.predicate < b.predicate)) := by
      rw [List.pairwise_flatten]
      constructor
      · intro l hl
        rw [List.mem_map] at hl
        obtain ⟨sl, hsl, rfl⟩ := hl
        apply List.Pairwise.imp_of_mem ?_ (hp sl hsl)
        intro a b ha hb hab
        exact Or.inr ⟨(hsub sl hsl a ha).trans (hsub sl hsl b hb).symm, hab⟩
      · rw [List.pairwise_map]
        apply List.Pairwise.imp_of_mem ?_ hs
        intro sl1 sl2 h1 h2 hlt x hx y hy
        exact Or.inl (by rw [hsub sl1 h1 x hx, hsub sl2 h2 y hy]; exact hlt)
    apply List.Pairwise.imp_of_mem ?_ hM
    intro spl1 spl2 h1 h2 hrel x hx y hy
    unfold SubjectPredicateLookup.triples at hx hy
    rw [List.mem_map] at hx hy
    obtain ⟨o1, ho1, rfl⟩ := hx
    obtain ⟨o2, ho2, rfl⟩ := hy
    rcases hrel with h | ⟨heq, hlt⟩
    · exact Or.inl h
    · exact Or.inr ⟨heq, Or.inl hlt⟩

/-- A concrete layer with two subjects for the C8 witness. -/
def twoSubjectLayer : LayerView :=
  { subject_id := fun _ => none
    predicate_id := fun _ => none
    object_node_id := fun _ => none
    object_value_id := fun _ => none
    subjects := [SubjectLookup.mk 1
                   [SubjectPredicateLookup.mk 1 1 [1, 3] (fun _ => false),
                    SubjectPredicateLookup.mk 1 2 [2] (fun _ => false)]
                   (fun _ => none),
                 SubjectLookup.mk 2
                   [SubjectPredicateLookup.mk 2 1 [1] (fun _ => false)]
                   (fun _ => none)]
    lookup_subject := fun _ => none
    objects := []
    lookup_object := fun _ => none }

/-- C8 witness: the concrete two-subject layer's `triples()` output is
strictly ascending in (subject, predicate, object). -/
theorem C8_triples_sorted_witness :
    twoSubjectLayer.triples.Pairwise IdTriple.lt :=
  C8_triples_sorted twoSubjectLayer
    (by unfold twoSubjectLayer; decide)
    (by unfold twoSubjectLayer; decide)
    (by unfold twoSubjectLayer; decide)
    (by unfold twoSubjectLayer; decide)

/-! ## The database layer builder (`DatabaseLayerBuilder`, store/mod.rs lines 26-112)

The wrapper keeps the inner `LayerBuilder` behind a lock as an `Option`;
`commit` swaps the inner builder out, and every operation finding `None`
fails with the already-committed error. The inner builder and the layer a
commit produces are abstract (the source holds them as trait objects), so
they appear as type parameters, and the trait methods a call dispatches to
appear as function arguments. -/

/-- The error a consumed builder reports: in the source, an
`io::ErrorKind::InvalidData` error with the message "builder has already
been committed"; the spec taxonomy calls it BuilderConsumed. -/
inductive BuilderError where
  | builderConsumed
deriving DecidableEq, Repr

/-- The wrapper state: the layer name, and the inner builder or `None`
once committed. -/
structure DatabaseLayerBuilder (β : Type) where
  name : LayerName
  builder : Option β

/-- `DatabaseLayerBuilder::with_builder` (store/mod.rs lines 51-60): under
the write lock, fail when the inner builder has been taken, otherwise
apply the given function to it. -/
def DatabaseLayerBuilder.with_builder {β ρ : Type} (b : DatabaseLayerBuilder β)
    (f : β → β × ρ) : Except BuilderError (ρ × DatabaseLayerBuilder β) :=
  match b.builder with
  | none => .error .builderConsumed
  | some inner =>
    let (inner', r) := f inner
    .ok (r, { b with builder := some inner' })

/-- `DatabaseLayerBuilder::add_string_triple` (store/mod.rs lines 68-71);
`addFn` is the inner trait object's `add_string_triple`. -/
def DatabaseLayerBuilder.add_string_triple {β : Type} (addFn : β → StringTriple → β)
    (b : DatabaseLayerBuilder β) (triple : StringTriple) :
    Except BuilderError (Unit × DatabaseLayerBuilder β) :=
  b.with_builder (fun inner => (addFn inner triple, ()))

/-- `DatabaseLayerBuilder::add_id_triple` (store/mod.rs lines 74-76);
`addFn` is the inner trait object's `add_id_triple`, which reports whether
the triple was accepted. -/
def DatabaseLayerBuilder.add_id_triple {β : Type} (addFn : β → IdTriple → β × Bool)
    (b : DatabaseLayerBuilder β) (triple : IdTriple) :
    Except BuilderError (Bool × DatabaseLayerBuilder β) :=
  b.with_builder (fun inner => addFn inner triple)

/-- `DatabaseLayerBuilder::remove_string_triple` (store/mod.rs lines
79-82). -/
def DatabaseLayerBuilder.remove_string_triple {β : Type} (removeFn : β → StringTriple → β × Bool)
    (b : DatabaseLayerBuilder β) (triple : StringTriple) :
    Except BuilderError (Bool × DatabaseLayerBuilder β) :=
  b.with_builder (fun inner => removeFn inner triple)

/-- `DatabaseLayerBuilder::remove_id_triple` (store/mod.rs lines 85-87). -/
def DatabaseLayerBuilder.remove_id_triple {β : Type} (removeFn : β → IdTriple → β × Bool)
    (b : DatabaseLayerBuilder β) (triple : IdTriple) :
    Except BuilderError (Bool × DatabaseLayerBuilder β) :=
  b.with_builder (fun inner => removeFn inner triple)

/-- `DatabaseLayerBuilder::commit` (store/mod.rs lines 90-111): swap the
inner builder out; if it was already taken, fail with the
already-committed error, otherwise commit it (`commitFn` covers
`commit_boxed` followed by fetching the new layer from the store) and
leave `None` behind. -/
def DatabaseLayerBuilder.commit {β γ : Type} (commitFn : β → γ)
    (b : DatabaseLayerBuilder β) : Except BuilderError (γ × DatabaseLayerBuilder β) :=
  match b.builder with
  | none => .error .builderConsumed
  | some inner => .ok (commitFn inner, { b with builder := none })

/-- C5: once a builder's `commit` has completed, every subsequent
operation on the builder state it leaves behind — `add_string_triple`,
`add_id_triple`, `remove_string_triple`, `remove_id_triple`, and a second
`commit` — fails with the already-committed error. -/
theorem C5_builder_consumed {β γ : Type}
    (addS : β → StringTriple → β) (addI : β → IdTriple → β × Bool)
    (removeS : β → StringTriple → β × Bool) (removeI : β → IdTriple → β × Bool)
    (commitFn : β → γ) (b b' : DatabaseLayerBuilder β) (layer : γ)
    (h : b.commit commitFn = .ok (layer, b')) :
    (∀ t, b'.add_string_triple addS t = .error .builderConsumed)
    ∧ (∀ t, b'.add_id_triple addI t = .error .builderConsumed)
    ∧ (∀ t, b'.remove_string_triple removeS t = .error .builderConsumed)
    ∧ (∀ t, b'.remove_id_triple removeI t = .error .builderConsumed)
    ∧ b'.commit commitFn = .error .builderConsumed := by
  have hb' : b'.builder = none := by
    unfold DatabaseLayerBuilder.commit at h
    cases hcase : b.builder with
    | none => rw [hcase] at h; exact absurd h (by simp)
    | some inner =>
      rw [hcase] at h
      simp only [Except.ok.injEq, Prod.mk.injEq] at h
      rw [← h.2]
  refine ⟨?_, ?_, ?_, ?_, ?_⟩
  · intro t
    unfold DatabaseLayerBuilder.add_string_triple DatabaseLayerBuilder.with_builder
    rw [hb']
  · intro t
    unfold DatabaseLayerBuilder.add_id_triple DatabaseLayerBuilder.with_builder
    rw [hb']
  · intro t
    unfold DatabaseLayerBuilder.remove_string_triple DatabaseLayerBuilder.with_builder
    rw [hb']
  · intro t
    unfold DatabaseLayerBuilder.remove_id_triple DatabaseLayerBuilder.with_builder
    rw [hb']
  · unfold DatabaseLayerBuilder.commit
    rw [hb']

/-- C5 witness: a concrete builder over a unit inner builder, committed
once; the second commit fails with the already-committed error. -/
theorem C5_builder_consumed_witness :
    (DatabaseLayerBuilder.commit (fun _ => (0 : Nat))
      { name := (0, 0, 0, 0, 1), builder := (none : Option Unit) }) = .error .builderConsumed :=
  (C5_builder_consumed (fun b _ => b) (fun b _ => (b, true)) (fun b _ => (b, true))
    (fun b _ => (b, true)) (fun _ => (0 : Nat))
    { name := (0, 0, 0, 0, 1), builder := (some () : Option Unit) }
    { name := (0, 0, 0, 0, 1), builder := (none : Option Unit) } 0 rfl).2.2.2.2

/-! ## Theorems: C6 -/

/-- C6 counterexample: a label file whose second line is not terminated by
a newline — `"0\n"` followed by a 40-character layer name with no final
newline — is read successfully, refuting the claim that reading succeeds
only when each of the two lines is terminated by a newline. -/
theorem C6_counterexample :
    ("0\naaaaaaaaaaaaaaaaaaaaaaaaaaaaaaaaaaaaaaaa").data.getLast? = some 'a'
    ∧ read_label_file "0\naaaaaaaaaaaaaaaaaaaaaaaaaaaaaaaaaaaaaaaa" "foo" =
        .ok ⟨"foo", some (2863311530, 2863311530, 2863311530, 2863311530, 2863311530), 0⟩ := by
  decide

/-- C6 (amended): reading a label file succeeds if and only if its content
consists of exactly two lines — a decimal `u64` version on line 1 and a
layer name or empty string on line 2 — each terminated by a newline except
that the terminator of the final line is optional; any other content
yields an InvalidFormat error. -/
theorem C6_read_label_file_amended (content name : String) :
    ((∃ lbl, read_label_file content name = .ok lbl)
      ↔ spec_label_file_wellformed content = true)
    ∧ (spec_label_file_wellformed content = false →
        read_label_file content name = .error .invalidData) := by
  unfold read_label_file spec_label_file_wellformed
  cases h : rustLines content with
  | nil => simp
  | cons a t =>
    cases t with
    | nil => simp
    | cons b t2 =>
      cases t2 with
      | cons c t3 => simp
      | nil =>
        cases hv : u64_from_dec_str a.data with
        | none => simp [hv]
        | some v =>
          by_cases hb : b = ""
          · subst hb
            simp [hv]
          · simp only [if_neg hb]
            cases hn : string_to_name b with
            | none => simp [hb, hv, hn]
            | some nm => simp [hb, hv, hn]

/-- C6 amended-claim witness: malformed content is rejected with the
InvalidFormat error. -/
theorem C6_read_label_file_amended_witness :
    read_label_file "garbage" "foo" = .error .invalidData :=
  (C6_read_label_file_amended "garbage" "foo").2 (by decide)

/-! ## Databases: `head` and `set_head` (store/mod.rs lines 204-271)

A `Store` pairs a label store and a layer store; both are behind trait
objects whose lookup surface is modelled as association lists keyed by
label name and layer name. -/

/-- The store state visible to `Database::head` and `Database::set_head`. -/
structure StoreM where
  labels : List (String × Label)
  layers : List (LayerName × Layer)
deriving DecidableEq

/-- `LabelStore::get_label`. -/
def StoreM.get_label (s : StoreM) (name : String) : Option Label :=
  s.labels.lookup name

/-- `LayerStore::get_layer`. -/
def StoreM.get_layer (s : StoreM) (name : LayerName) : Option Layer :=
  s.layers.lookup name

/-- Modelled from the spec: `LabelStore::set_label` as the label stores
implement it is not part of the source under consideration; per the spec
(section 4.F) it is a compare-and-swap that succeeds iff the stored
version equals `expected.version`, in which case it stores
`(name, new_layer, expected.version + 1)` and returns the new label, and
otherwise returns `None`. -/
def LabelStore.set_label (labels : List (String × Label)) (expected : Label)
    (new_layer : LayerName) : Option Label × List (String × Label) :=
  match labels.lookup expected.name with
  | none => (none, labels)
  | some stored =>
    if stored.version = expected.version then
      let new_label : Label :=
        { name := expected.name, layer := some new_layer, version := expected.version + 1 }
      (some new_label,
        labels.map (fun p => if p.1 = expected.name then (p.1, new_label) else p))
    else (none, labels)

/-- `Database::head` (store/mod.rs lines 218-235): a missing label is a
NotFound error; a label with no head layer is a successful `None`;
otherwise the result of fetching the head layer from the layer store. -/
def Database.head (store : StoreM) (label : String) : Except StoreError (Option Layer) :=
  match store.get_label label with
  | none => .error .notFound
  | some lbl =>
    match lbl.layer with
    | none => .ok none
    | some layer_name => .ok (store.get_layer layer_name)

/-- The condition `Database::set_head` computes before updating the label
(store/mod.rs lines 247-255): true when the label has no head layer;
otherwise, fetch the layer at head and ask whether it is an ancestor of
the new layer, false when it cannot be fetched. -/
def set_head_check (store : StoreM) (label : Label) (layer : Layer) : Bool :=
  match label.layer with
  | none => true
  | some layer_name =>
    ((store.get_layer layer_name).map (fun l => is_ancestor_of l layer)).getD false

/-- `Database::set_head` (store/mod.rs lines 238-270): a missing label is a
NotFound error; when the check holds, hand the label and the new layer's
name to `set_label` and report true; otherwise report false. The pair
returned is (reported result, label store contents after the call). -/
def Database.set_head (store : StoreM) (db : String) (layer : Layer) :
    Except StoreError (Bool × List (String × Label)) :=
  match store.get_label db with
  | none => .error .notFound
  | some label =>
    if set_head_check store label layer then
      .ok (true, (LabelStore.set_label store.labels label layer.name).2)
    else .ok (false, store.labels)

/-! ## Theorems: C9 -/

/-- C9: `Database::head` distinguishes a missing database from an empty
one: a missing label is a NotFound error, while a label whose head layer
is unset is a successful `None`. -/
theorem C9_head_missing_vs_empty (store : StoreM) (db : String) :
    (store.get_label db = none → Database.head store db = .error .notFound)
    ∧ (∀ lbl, store.get_label db = some lbl → lbl.layer = none →
        Database.head store db = .ok none) := by
  constructor
  · intro h
    simp only [Database.head, h]
  · intro lbl hlbl hlayer
    simp only [Database.head, hlbl, hlayer]

/-- C9 witness: on a store holding only the label "emptydb" with no head
layer, asking for a missing database errors with NotFound while asking for
"emptydb" succeeds with `None`. -/
theorem C9_head_missing_vs_empty_witness :
    Database.head ⟨[("emptydb", ⟨"emptydb", none, 0⟩)], []⟩ "missing" = .error .notFound
    ∧ Database.head ⟨[("emptydb", ⟨"emptydb", none, 0⟩)], []⟩ "emptydb" = .ok none :=
  ⟨(C9_head_missing_vs_empty ⟨[("emptydb", ⟨"emptydb", none, 0⟩)], []⟩ "missing").1 (by decide),
   (C9_head_missing_vs_empty ⟨[("emptydb", ⟨"emptydb", none, 0⟩)], []⟩ "emptydb").2
     ⟨"emptydb", none, 0⟩ (by decide) (by decide)⟩

/-! ## Theorems: C10 -/

/-- C10 counterexample: on a store with no labels at all, `set_head` fails
with a NotFound error rather than returning false with the label store
unchanged, refuting the claim that in every non-attempting case it
returns false. -/
theorem C10_counterexample :
    Database.set_head ⟨[], []⟩ "foo" (Layer.base (0, 0, 0, 0, 0)) = .error .notFound
    ∧ Database.set_head ⟨[], []⟩ "foo" (Layer.base (0, 0, 0, 0, 0))
        ≠ .ok (false, ([] : List (String × Label))) := by
  decide

/-- C10 (amended): `set_head(layer)` attempts the label update if and only
if the label exists and either its head is unset or the layer currently at
head loads and is a strict ancestor of the new layer; when the label
exists and the condition fails it returns false leaving the label store
unchanged — in particular, `set_head` with the layer already at head
returns false, a layer not being its own ancestor — and when the label is
missing it fails with a NotFound error. -/
theorem C10_set_head_amended (store : StoreM) (db : String) (layer : Layer) :
    (store.get_label db = none → Database.set_head store db layer = .error .notFound)
    ∧ (∀ lbl, store.get_label db = some lbl →
        (lbl.layer = none
          ∨ ∃ hn hl, lbl.layer = some hn ∧ store.get_layer hn = some hl
              ∧ is_ancestor_of hl layer = true) →
        Database.set_head store db layer =
          .ok (true, (LabelStore.set_label store.labels lbl layer.name).2))
    ∧ (∀ lbl, store.get_label db = some lbl →
        ¬(lbl.layer = none
          ∨ ∃ hn hl, lbl.layer = some hn ∧ store.get_layer hn = some hl
              ∧ is_ancestor_of hl layer = true) →
        Database.set_head store db layer = .ok (false, store.labels))
    ∧ (∀ lbl, store.get_label db = some lbl → lbl.layer = some layer.name →
        store.get_layer layer.name = some layer → layer.chainNames.Nodup →
        Database.set_head store db layer = .ok (false, store.labels)) := by
  have hcheck : ∀ lbl, set_head_check store lbl layer = true ↔
      (lbl.layer = none
        ∨ ∃ hn hl, lbl.layer = some hn ∧ store.get_layer hn = some hl
            ∧ is_ancestor_of hl layer = true) := by
    intro lbl
    cases hl : lbl.layer with
    | none => simp [set_head_check, hl]
    | some hn =>
      cases hg : store.get_layer hn with
      | none =>
        simp only [set_head_check, hl, hg, Option.map_none', Option.getD_none,
          Bool.false_eq_true, false_iff]
        rintro (h | ⟨hn', hl', hhn, hghl, hanc⟩)
        · exact Option.some_ne_none hn h
        · injection hhn with he
          rw [← he, hg] at hghl
          exact Option.noConfusion hghl
      | some l =>
        simp only [set_head_check, hl, hg, Option.map_some', Option.getD_some]
        constructor
        · intro h
          exact Or.inr ⟨hn, l, rfl, hg, h⟩
        · rintro (h | ⟨hn', hl', hhn, hghl, hanc⟩)
          · exact absurd h (Option.some_ne_none hn)
          · injection hhn with he
            rw [← he, hg] at hghl
            injection hghl with he2
            rw [he2]
            exact hanc
  refine ⟨?_, ?_, ?_, ?_⟩
  · intro h
    simp only [Database.set_head, h]
  · intro lbl hlbl hcond
    simp only [Database.set_head, hlbl]
    rw [if_pos ((hcheck lbl).mpr hcond)]
  · intro lbl hlbl hcond
    simp only [Database.set_head, hlbl]
    rw [if_neg (fun h => hcond ((hcheck lbl).mp h))]
  · intro lbl hlbl hhead hlayer hnodup
    simp only [Database.set_head, hlbl]
    have hfalse : set_head_check store lbl layer = false := by
      simp only [set_head_check, hhead, hlayer, Option.map_some', Option.getD_some]
      exact is_ancestor_of_self_eq_false layer hnodup
    rw [hfalse]
    simp

/-- C10 witness: a store whose label points at the base layer it also
holds; `set_head` with that same layer returns false and leaves the label
store unchanged. -/
theorem C10_set_head_amended_witness :
    Database.set_head
      ⟨[("db", ⟨"db", some (1, 0, 0, 0, 0), 1⟩)], [((1, 0, 0, 0, 0), Layer.base (1, 0, 0, 0, 0))]⟩
      "db" (Layer.base (1, 0, 0, 0, 0))
      = .ok (false, [("db", ⟨"db", some (1, 0, 0, 0, 0), 1⟩)]) :=
  (C10_set_head_amended
    ⟨[("db", ⟨"db", some (1, 0, 0, 0, 0), 1⟩)], [((1, 0, 0, 0, 0), Layer.base (1, 0, 0, 0, 0))]⟩
    "db" (Layer.base (1, 0, 0, 0, 0))).2.2.2
    ⟨"db", some (1, 0, 0, 0, 0), 1⟩ (by decide) (by decide) (by decide) (by decide)
